import Mathlib

/-!
# Shallow embedding of the chsync drift-detection engine

This file embeds the drift-detection and reconciliation core of the
`chsync` repository (`main.go`, `config.go`, and the synchronizer source
file) into Lean 4 and proves properties of it.

Modelling conventions:
* Go's `map[string]string` for a table's desired columns is modelled as an
  association list `List (String × String)` with unique keys; iteration is
  list order, which stands for the insertion order the specification
  ascribes to the desired column mapping.
* The live column catalog rows returned for one replica are a
  `List (String × String)` in discovery (row) order.
* A Go `panic` (from indexing an empty slice) is modelled by a `panicked`
  flag on the check outcome: divergences logged and fix tasks dispatched
  before the panic are kept, everything after is cut off, and the flag
  propagates outward, aborting the run.
* A dispatched `go`-routine performing a corrective statement is modelled
  as an `Action` value appended to the outcome's action list at the moment
  the goroutine is launched.
-/

namespace Chsync

/-- ASCII/Latin-1 fragment of Go's `unicode.IsSpace`, the separator
predicate of `strings.Fields`.  (Type strings in the configuration are
Latin-1; the higher Unicode space code points never occur in them.) -/
def goIsSpace (c : Char) : Bool :=
  c = ' ' || c = '\t' || c = '\n' || c = '\x0b' || c = '\x0c' || c = '\r' ||
  c = '\x85' || c = '\xa0'

/-- Helper for `fields`: splits a character list around runs of spaces,
accumulating the current (reversed) word. -/
def fieldsAux : List Char → List Char → List (List Char)
  | [], acc => if acc.isEmpty then [] else [acc.reverse]
  | c :: cs, acc =>
    if goIsSpace c then
      if acc.isEmpty then fieldsAux cs [] else acc.reverse :: fieldsAux cs []
    else
      fieldsAux cs (c :: acc)

/-- Embedding of Go's `strings.Fields`: the whitespace-delimited tokens of
a string, in order, with no empty tokens. -/
def fields (s : String) : List String :=
  (fieldsAux s.data []).map fun l => ⟨l⟩

/-- Desired table definition (`Table` in `config.go`).  `columns` is the
desired column mapping in insertion order. -/
structure Table where
  view : Bool
  materialized : Bool
  populate : Bool
  columns : List (String × String)
  engine : String
  asAnotherTable : String
  asSelect : String
deriving Repr, DecidableEq

/-- Lookup in the desired column mapping (Go `table.Columns[columnName]`). -/
def lookupCol (cols : List (String × String)) (name : String) : Option String :=
  (cols.find? fun p => p.1 = name).map Prod.snd

/-- The fix policy bits of the `Synchronizer` (`sync.fix` set by `SetFix`,
`sync.dropColumns` set by `SetDropColumns`). -/
structure SyncFlags where
  fix : Bool
  dropColumns : Bool
deriving Repr, DecidableEq

/-- A classified divergence, as logged by `CheckTable`. -/
inductive Divergence where
  | objectMissing
  | columnExcess (name : String)
  | typeMismatch (name wantType haveType : String)
  | columnMissing (name wantType : String)
deriving Repr, DecidableEq

/-- A corrective task dispatched (as a goroutine) by `CheckTable`. -/
inductive Action where
  | createTable (name : String) (t : Table)
  | createView (name : String) (t : Table)
  | addColumn (name col typ : String)
  | modifyColumn (name col typ : String)
  | dropColumn (name col : String)
deriving Repr, DecidableEq

/-- SQL text of `Synchronizer.CreateTable`'s statement. -/
def createTableSQL (name : String) (t : Table) : String :=
  let base := "CREATE TABLE IF NOT EXISTS " ++ name ++ " "
  let base :=
    if ¬ t.columns.isEmpty then
      base ++ "(" ++
        String.intercalate ", " (t.columns.map fun p => p.1 ++ " " ++ p.2) ++ ") "
    else if t.asAnotherTable ≠ "" then
      base ++ "AS " ++ t.asAnotherTable ++ " "
    else base
  base ++ "ENGINE = " ++ t.engine

/-- SQL text of `Synchronizer.CreateView`'s statement, `none` when the view
has no `as_select` (the Go code logs an error and returns without issuing
any statement). -/
def createViewSQL (name : String) (t : Table) : Option String :=
  if t.asSelect = "" then none
  else
    let base :=
      if t.materialized then "CREATE MATERIALIZED VIEW IF NOT EXISTS "
      else "CREATE VIEW IF NOT EXISTS "
    let base := base ++ name ++ " "
    let base :=
      if ¬ t.columns.isEmpty then
        base ++ "(" ++
          String.intercalate ", " (t.columns.map fun p => p.1 ++ " " ++ p.2) ++ ") "
      else base
    let base := if t.engine ≠ "" then base ++ "ENGINE = " ++ t.engine ++ " " else base
    let base := if t.populate then base ++ "POPULATE " else base
    some (base ++ "AS " ++ t.asSelect)

/-- The SQL statement a dispatched corrective task executes, `none` when
the task issues none (view without `as_select`). -/
def Action.stmt : Action → Option String
  | .createTable n t => some (createTableSQL n t)
  | .createView n t => createViewSQL n t
  | .addColumn n c ty => some ("ALTER TABLE " ++ n ++ " ADD COLUMN " ++ c ++ " " ++ ty)
  | .modifyColumn n c ty => some ("ALTER TABLE " ++ n ++ " MODIFY COLUMN " ++ c ++ " " ++ ty)
  | .dropColumn n c => some ("ALTER TABLE " ++ n ++ " DROP COLUMN " ++ c)

/-- Outcome of (part of) a check: the divergences logged, the corrective
tasks dispatched, and whether the code panicked. -/
structure CheckOutcome where
  divs : List Divergence
  acts : List Action
  panicked : Bool
deriving Repr, DecidableEq

/-- The row-scanning loop of `CheckTable` (`for e.Rows.Next() { ... }`):
per live column, either skip (desired mapping empty), log an excess
column (and drop it when `fix && dropColumns`), or compare the live type
against the first token of the desired type (modifying the column when
`fix`).  `strings.Fields(needType)[0]` on a token-free desired type is the
panic of the Go code. -/
def scanColumns (flags : SyncFlags) (tname : String) (t : Table) :
    List (String × String) → CheckOutcome
  | [] => ⟨[], [], false⟩
  | (cname, ctype) :: rest =>
    if t.columns.isEmpty then
      scanColumns flags tname t rest
    else
      match lookupCol t.columns cname with
      | none =>
        let r := scanColumns flags tname t rest
        ⟨.columnExcess cname :: r.divs,
         (if flags.fix && flags.dropColumns then [.dropColumn tname cname] else [])
           ++ r.acts,
         r.panicked⟩
      | some needType =>
        match fields needType with
        | [] => ⟨[], [], true⟩
        | tok :: _ =>
          if tok = ctype then
            scanColumns flags tname t rest
          else
            let r := scanColumns flags tname t rest
            ⟨.typeMismatch cname tok ctype :: r.divs,
             (if flags.fix then [.modifyColumn tname cname tok] else []) ++ r.acts,
             r.panicked⟩

/-- The trailing loop of `CheckTable` (`for columnName, needType := range
table.Columns`): a desired column absent from the scanned live names is
missing; when `fix`, add it. -/
def missingColumns (flags : SyncFlags) (tname : String) (t : Table)
    (liveNames : List String) : List Divergence × List Action :=
  t.columns.foldr
    (fun p r =>
      if liveNames.contains p.1 then r
      else
        (.columnMissing p.1 p.2 :: r.1,
         (if flags.fix then [.addColumn tname p.1 p.2] else []) ++ r.2))
    ([], [])

/-- One replica's slice of `CheckTable`: scan the live rows; if none were
returned the object is missing (create it when `fix`); otherwise report
desired columns absent from the live set. -/
def checkTableReplica (flags : SyncFlags) (tname : String) (t : Table)
    (live : List (String × String)) : CheckOutcome :=
  let s := scanColumns flags tname t live
  if s.panicked then s
  else if live.isEmpty then
    ⟨[.objectMissing],
     if flags.fix then
       if t.view then [.createView tname t] else [.createTable tname t]
     else [],
     false⟩
  else
    let m := missingColumns flags tname t (live.map Prod.fst)
    ⟨s.divs ++ m.1, s.acts ++ m.2, false⟩

/-- The live rows `CheckTable` iterates for one replica's query result:
`for e.Rows != nil && e.Rows.Next()` — a `nil` row set (failed query)
iterates nothing. -/
structure GoRows where
  rows : List (String × String)
  iterErr : Option String
deriving Repr, DecidableEq

/-- `QueryResult` from the synchronizer source: the row set (`none` models
a `nil` `*sql.Rows`, as returned together with a query error) and the
query error itself. -/
structure QueryResult where
  rows : Option GoRows
  err : Option String
deriving Repr, DecidableEq

/-- The rows `CheckTable` actually sees for one result. -/
def liveOf (r : QueryResult) : List (String × String) :=
  match r.rows with
  | none => []
  | some g => g.rows

/-- `QueryResults.HasError`: `r.Rows != nil && r.Rows.Err() != nil` per
result — only row-iteration errors of non-nil row sets are inspected, the
query error field never is. -/
def queryResultsHasError (rs : List QueryResult) : Bool :=
  rs.any fun r =>
    match r.rows with
    | some g => g.iterErr.isSome
    | none => false

/-- `CheckTable` over all replicas' query results, one replica at a time;
a panic aborts the remaining replicas. -/
def checkTable (flags : SyncFlags) (tname : String) (t : Table) :
    List QueryResult → CheckOutcome
  | [] => ⟨[], [], false⟩
  | r :: rest =>
    let o := checkTableReplica flags tname t (liveOf r)
    if o.panicked then o
    else
      let o2 := checkTable flags tname t rest
      ⟨o.divs ++ o2.divs, o.acts ++ o2.acts, o2.panicked⟩

/-- One table to check: its name, desired definition, and the per-replica
catalog query results. -/
structure TableCheckInput where
  name : String
  table : Table
  results : List QueryResult
deriving Repr, DecidableEq

/-- A whole run's table checks (the databases → tables enumeration of
`Check`/`CheckDatabase`, flattened); a panic aborts the rest of the run. -/
def runCheck (flags : SyncFlags) : List TableCheckInput → CheckOutcome
  | [] => ⟨[], [], false⟩
  | i :: rest =>
    let o := checkTable flags i.name i.table i.results
    if o.panicked then o
    else
      let o2 := runCheck flags rest
      ⟨o.divs ++ o2.divs, o.acts ++ o2.acts, o2.panicked⟩

example :
    checkTableReplica ⟨false, false⟩ "t"
      ⟨false, false, false, [("a", "UInt8")], "Log", "", ""⟩
      [("a", "Int8"), ("x", "String")] =
    ⟨[.typeMismatch "a" "UInt8" "Int8", .columnExcess "x"], [], false⟩ := by
  decide
/-- Spec-level view of what one live column contributes to the divergence
list during the row scan. -/
def scanDivSpec (t : Table) (p : String × String) : Option Divergence :=
  if t.columns.isEmpty then none
  else
    match lookupCol t.columns p.1 with
    | none => some (.columnExcess p.1)
    | some need =>
      match fields need with
      | [] => none
      | tok :: _ => if tok = p.2 then none else some (.typeMismatch p.1 tok p.2)

/-- Spec-level view of what one live column contributes to the dispatched
corrective tasks during the row scan. -/
def scanActSpec (flags : SyncFlags) (tname : String) (t : Table)
    (p : String × String) : Option Action :=
  if t.columns.isEmpty then none
  else
    match lookupCol t.columns p.1 with
    | none =>
      if flags.fix && flags.dropColumns then some (.dropColumn tname p.1) else none
    | some need =>
      match fields need with
      | [] => none
      | tok :: _ =>
        if tok = p.2 then none
        else if flags.fix then some (.modifyColumn tname p.1 tok) else none

/-- Spec-level view of what one desired column contributes to the missing
-column divergences. -/
def missingDivSpec (liveNames : List String) (p : String × String) :
    Option Divergence :=
  if liveNames.contains p.1 then none else some (.columnMissing p.1 p.2)

/-- Spec-level view of what one desired column contributes to the
dispatched add-column tasks. -/
def missingActSpec (flags : SyncFlags) (tname : String) (liveNames : List String)
    (p : String × String) : Option Action :=
  if liveNames.contains p.1 then none
  else if flags.fix then some (.addColumn tname p.1 p.2) else none

/-- Rank of a divergence kind, used to phrase the grouped-ordering claim. -/
def kindRank : Divergence → Nat
  | .objectMissing => 0
  | .columnExcess _ => 1
  | .typeMismatch _ _ _ => 2
  | .columnMissing _ _ => 3

theorem missingColumns_eq (flags : SyncFlags) (tname : String) (t : Table)
    (ln : List String) :
    missingColumns flags tname t ln =
      (t.columns.filterMap (missingDivSpec ln),
       t.columns.filterMap (missingActSpec flags tname ln)) := by
  unfold missingColumns
  induction t.columns with
  | nil => simp
  | cons p ps ih =>
    simp only [List.foldr_cons, List.filterMap_cons, ih]
    by_cases h : p.1 ∈ ln <;>
      by_cases hfx : flags.fix = true <;>
        simp [h, hfx, missingDivSpec, missingActSpec]

theorem scanColumns_divs_eq (flags : SyncFlags) (tname : String) (t : Table) :
    ∀ live : List (String × String),
      (scanColumns flags tname t live).panicked = false →
      (scanColumns flags tname t live).divs = live.filterMap (scanDivSpec t)
  | [] => by intro _; simp [scanColumns]
  | (cname, ctype) :: rest => by
    intro hnp
    have ih := scanColumns_divs_eq flags tname t rest
    by_cases hemp : t.columns.isEmpty
    · simp only [scanColumns, hemp, if_true, List.filterMap_cons] at hnp ⊢
      simp [scanDivSpec, hemp, ih hnp]
    · cases hlk : lookupCol t.columns cname with
      | none =>
        simp only [scanColumns, hemp, if_false, hlk] at hnp ⊢
        simp [scanDivSpec, hemp, hlk, ih hnp]
      | some need =>
        cases hf : fields need with
        | nil =>
          simp only [scanColumns, hemp, if_false, hlk, hf] at hnp
          simp at hnp
        | cons tok toks =>
          by_cases htok : tok = ctype
          · simp only [scanColumns, hemp, if_false, hlk, hf, htok, if_true] at hnp ⊢
            simp [scanDivSpec, hemp, hlk, hf, htok, ih hnp]
          · simp only [scanColumns, hemp, if_false, hlk, hf, htok, if_false] at hnp ⊢
            simp [scanDivSpec, hemp, hlk, hf, htok, ih hnp]

theorem scanColumns_acts_eq (flags : SyncFlags) (tname : String) (t : Table) :
    ∀ live : List (String × String),
      (scanColumns flags tname t live).panicked = false →
      (scanColumns flags tname t live).acts =
        live.filterMap (scanActSpec flags tname t)
  | [] => by intro _; simp [scanColumns]
  | (cname, ctype) :: rest => by
    intro hnp
    have ih := scanColumns_acts_eq flags tname t rest
    by_cases hemp : t.columns.isEmpty
    · simp only [scanColumns, hemp, if_true, List.filterMap_cons] at hnp ⊢
      simp [scanActSpec, hemp, ih hnp]
    · cases hlk : lookupCol t.columns cname with
      | none =>
        simp only [scanColumns, hemp, if_false, hlk] at hnp ⊢
        by_cases hfd : (flags.fix && flags.dropColumns) = true <;>
          simp [scanActSpec, hemp, hlk, hfd, ih hnp]
      | some need =>
        cases hf : fields need with
        | nil =>
          simp only [scanColumns, hemp, if_false, hlk, hf] at hnp
          simp at hnp
        | cons tok toks =>
          by_cases htok : tok = ctype
          · simp only [scanColumns, hemp, if_false, hlk, hf, htok, if_true] at hnp ⊢
            simp [scanActSpec, hemp, hlk, hf, htok, ih hnp]
          · simp only [scanColumns, hemp, if_false, hlk, hf, htok, if_false] at hnp ⊢
            by_cases hfx : flags.fix = true <;>
              simp [scanActSpec, hemp, hlk, hf, htok, hfx, ih hnp]

theorem checkTableReplica_panicked (flags : SyncFlags) (tname : String)
    (t : Table) (live : List (String × String)) :
    (checkTableReplica flags tname t live).panicked =
      (scanColumns flags tname t live).panicked := by
  cases h : (scanColumns flags tname t live).panicked with
  | false => simp [checkTableReplica, h, apply_ite CheckOutcome.panicked]
  | true => simp [checkTableReplica, h]
theorem checkTableReplica_eq (flags : SyncFlags) (tname : String) (t : Table)
    (live : List (String × String))
    (hnp : (checkTableReplica flags tname t live).panicked = false)
    (hne : live ≠ []) :
    checkTableReplica flags tname t live =
      ⟨live.filterMap (scanDivSpec t) ++
         t.columns.filterMap (missingDivSpec (live.map Prod.fst)),
       live.filterMap (scanActSpec flags tname t) ++
         t.columns.filterMap (missingActSpec flags tname (live.map Prod.fst)),
       false⟩ := by
  rw [checkTableReplica_panicked] at hnp
  have hds := scanColumns_divs_eq flags tname t live hnp
  have has := scanColumns_acts_eq flags tname t live hnp
  have hle : live.isEmpty = false := by
    cases live with
    | nil => exact absurd rfl hne
    | cons a l => rfl
  simp [checkTableReplica, hnp, hle, missingColumns_eq, hds, has]

theorem checkTable_panicked (flags : SyncFlags) (tname : String) (t : Table) :
    ∀ rs : List QueryResult,
      (checkTable flags tname t rs).panicked =
        rs.any fun r => (checkTableReplica flags tname t (liveOf r)).panicked
  | [] => by simp [checkTable]
  | r :: rest => by
    have ih := checkTable_panicked flags tname t rest
    cases h : (checkTableReplica flags tname t (liveOf r)).panicked <;>
      simp [checkTable, h, ih]

theorem runCheck_panicked (flags : SyncFlags) :
    ∀ inputs : List TableCheckInput,
      (runCheck flags inputs).panicked =
        inputs.any fun i => (checkTable flags i.name i.table i.results).panicked
  | [] => by simp [runCheck]
  | i :: rest => by
    have ih := runCheck_panicked flags rest
    cases h : (checkTable flags i.name i.table i.results).panicked <;>
      simp [runCheck, h, ih]

theorem scanColumns_acts_nofix (d : Bool) (tname : String) (t : Table) :
    ∀ live : List (String × String),
      (scanColumns ⟨false, d⟩ tname t live).acts = []
  | [] => by simp [scanColumns]
  | (cname, ctype) :: rest => by
    have ih := scanColumns_acts_nofix d tname t rest
    by_cases hemp : t.columns.isEmpty
    · simp [scanColumns, hemp, ih]
    · cases hlk : lookupCol t.columns cname with
      | none => simp [scanColumns, hemp, hlk, ih]
      | some need =>
        cases hf : fields need with
        | nil => simp [scanColumns, hemp, hlk, hf]
        | cons tok toks =>
          by_cases htok : tok = ctype <;>
            simp [scanColumns, hemp, hlk, hf, htok, ih]

theorem checkTableReplica_acts_nofix (d : Bool) (tname : String) (t : Table)
    (live : List (String × String)) :
    (checkTableReplica ⟨false, d⟩ tname t live).acts = [] := by
  have hs := scanColumns_acts_nofix d tname t live
  have hm := missingColumns_eq ⟨false, d⟩ tname t (live.map Prod.fst)
  unfold checkTableReplica
  cases h : (scanColumns ⟨false, d⟩ tname t live).panicked <;>
    cases hl : live.isEmpty <;>
      simp_all [missingActSpec]

theorem checkTable_acts_nofix (d : Bool) (tname : String) (t : Table) :
    ∀ rs : List QueryResult, (checkTable ⟨false, d⟩ tname t rs).acts = []
  | [] => by simp [checkTable]
  | r :: rest => by
    have ih := checkTable_acts_nofix d tname t rest
    have h := checkTableReplica_acts_nofix d tname t (liveOf r)
    cases hp : (checkTableReplica ⟨false, d⟩ tname t (liveOf r)).panicked <;>
      simp [checkTable, hp, h, ih]
theorem lookupCol_isEmpty_false (cols : List (String × String)) (n v : String)
    (h : lookupCol cols n = some v) : cols.isEmpty = false := by
  cases cols with
  | nil => simp [lookupCol] at h
  | cons a l => rfl

theorem checkTableReplica_nil (flags : SyncFlags) (tname : String) (t : Table) :
    checkTableReplica flags tname t [] =
      ⟨[Divergence.objectMissing],
       if flags.fix then
         if t.view then [Action.createView tname t] else [Action.createTable tname t]
       else [],
       false⟩ := by
  simp [checkTableReplica, scanColumns]

theorem runCheck_acts_nofix (d : Bool) :
    ∀ inputs : List TableCheckInput, (runCheck ⟨false, d⟩ inputs).acts = []
  | [] => by simp [runCheck]
  | i :: rest => by
    have ih := runCheck_acts_nofix d rest
    have h := checkTable_acts_nofix d i.name i.table i.results
    cases hp : (checkTable ⟨false, d⟩ i.name i.table i.results).panicked <;>
      simp [runCheck, hp, h, ih]

theorem scanColumns_panics (flags : SyncFlags) (tname : String) (t : Table) :
    ∀ (live : List (String × String)) (cname ctype need : String),
      (cname, ctype) ∈ live →
      lookupCol t.columns cname = some need →
      fields need = [] →
      (scanColumns flags tname t live).panicked = true
  | [], cname, ctype, need => by intro hmem; simp at hmem
  | (a, b) :: rest, cname, ctype, need => by
    intro hmem hlk hf
    have hemp := lookupCol_isEmpty_false t.columns cname need hlk
    rcases List.mem_cons.mp hmem with heq | htail
    · obtain ⟨rfl, rfl⟩ := Prod.mk.injEq .. ▸ heq
      injection heq with h1 h2
      simp [scanColumns, hemp, hlk, hf]
    · have ih := scanColumns_panics flags tname t rest cname ctype need htail hlk hf
      by_cases hempa : t.columns.isEmpty
      · simp [scanColumns, hempa, ih]
      · cases hlka : lookupCol t.columns a with
        | none => simp [scanColumns, hempa, hlka, ih]
        | some needa =>
          cases hfa : fields needa with
          | nil => simp [scanColumns, hempa, hlka, hfa]
          | cons tok toks =>
            by_cases htok : tok = b <;>
              simp [scanColumns, hempa, hlka, hfa, htok, ih]

theorem scanColumns_match (flags : SyncFlags) (tname : String) (t : Table) :
    ∀ live : List (String × String),
      (∀ p ∈ live,
        (lookupCol t.columns p.1).bind (fun need => (fields need).head?) = some p.2) →
      scanColumns flags tname t live = ⟨[], [], false⟩
  | [] => by intro _; simp [scanColumns]
  | (cname, ctype) :: rest => by
    intro h
    have hhead := h (cname, ctype) (List.mem_cons_self _ _)
    have ih := scanColumns_match flags tname t rest
      (fun p hp => h p (List.mem_cons_of_mem _ hp))
    cases hlk : lookupCol t.columns cname with
    | none => rw [hlk] at hhead; simp at hhead
    | some need =>
      rw [hlk] at hhead
      cases hf : fields need with
      | nil => simp [hf] at hhead
      | cons tok toks =>
        simp only [hf, Option.some_bind, List.head?_cons, Option.some.injEq] at hhead
        have hemp := lookupCol_isEmpty_false t.columns cname need hlk
        simp [scanColumns, hemp, hlk, hf, hhead, ih]

/-- C3: for every desired table, a replica whose live column sequence is
empty yields exactly one divergence, `ObjectMissing`, and no column-level
divergence, regardless of the desired definition (with `fix`, the matching
create task is dispatched). -/
theorem claim3_empty_live_object_missing (flags : SyncFlags) (tname : String)
    (t : Table) :
    checkTableReplica flags tname t [] =
      ⟨[Divergence.objectMissing],
       if flags.fix then
         if t.view then [Action.createView tname t] else [Action.createTable tname t]
       else [],
       false⟩ :=
  checkTableReplica_nil flags tname t

/-- C4: with `applyFixes = false` no corrective task is ever dispatched
during a whole run — for every drop-columns setting, every table list, and
every per-replica query result — so no corrective statement is issued. -/
theorem claim4_nofix_no_actions (d : Bool) (inputs : List TableCheckInput) :
    (runCheck ⟨false, d⟩ inputs).acts = [] :=
  runCheck_acts_nofix d inputs

/-- C9: the aggregate error check of the catalog query ignores the query
error field entirely (erasing all query errors never changes it; a failed
query, `nil` rows with an error, reports no error), and the replica is then
checked as if zero rows were returned: exactly one `ObjectMissing`, and
with `fix` set a create task is dispatched. -/
theorem claim9_query_error_ignored (flags : SyncFlags) (tname : String)
    (t : Table) (msg : String) (rs : List QueryResult) :
    queryResultsHasError (rs.map fun r => ⟨r.rows, none⟩) =
      queryResultsHasError rs ∧
    queryResultsHasError [⟨none, some msg⟩] = false ∧
    liveOf ⟨none, some msg⟩ = [] ∧
    checkTableReplica flags tname t (liveOf ⟨none, some msg⟩) =
      ⟨[Divergence.objectMissing],
       if flags.fix then
         if t.view then [Action.createView tname t] else [Action.createTable tname t]
       else [],
       false⟩ := by
  refine ⟨?_, rfl, rfl, checkTableReplica_nil flags tname t⟩
  induction rs with
  | nil => rfl
  | cons r rest ih =>
    simp only [List.map_cons, queryResultsHasError, List.any_cons] at ih ⊢
    cases hr : r.rows <;> simp [hr, ih]

/-- C10: if some live column's name is present in the desired mapping with
a type string holding no token (empty or whitespace-only), the check of
that replica panics, and the whole table check aborts. -/
theorem claim10_empty_type_panics (flags : SyncFlags) (tname : String)
    (t : Table) (rs : List QueryResult) (r : QueryResult)
    (cname ctype need : String)
    (hr : r ∈ rs) (hmem : (cname, ctype) ∈ liveOf r)
    (hlk : lookupCol t.columns cname = some need) (hf : fields need = []) :
    (checkTableReplica flags tname t (liveOf r)).panicked = true ∧
    (checkTable flags tname t rs).panicked = true := by
  have h1 : (checkTableReplica flags tname t (liveOf r)).panicked = true := by
    rw [checkTableReplica_panicked]
    exact scanColumns_panics flags tname t (liveOf r) cname ctype need hmem hlk hf
  refine ⟨h1, ?_⟩
  rw [checkTable_panicked]
  exact List.any_eq_true.mpr ⟨r, hr, h1⟩

theorem claim10_empty_type_panics_witness :
    (checkTableReplica ⟨false, false⟩ "t"
      ⟨false, false, false, [("c", " ")], "Log", "", ""⟩
      (liveOf ⟨some ⟨[("c", "UInt8")], none⟩, none⟩)).panicked = true ∧
    (checkTable ⟨false, false⟩ "t"
      ⟨false, false, false, [("c", " ")], "Log", "", ""⟩
      [⟨some ⟨[("c", "UInt8")], none⟩, none⟩]).panicked = true :=
  claim10_empty_type_panics ⟨false, false⟩ "t"
    ⟨false, false, false, [("c", " ")], "Log", "", ""⟩
    [⟨some ⟨[("c", "UInt8")], none⟩, none⟩]
    ⟨some ⟨[("c", "UInt8")], none⟩, none⟩
    "c" "UInt8" " " (by decide) (by decide) (by decide) (by decide)
/-- Whether adjacent divergences are in non-decreasing group order
(excess before mismatch before missing, object-missing first). -/
def rankChain : List Divergence → Bool
  | [] => true
  | [_] => true
  | a :: b :: rest => Nat.ble (kindRank a) (kindRank b) && rankChain (b :: rest)

/-- C1 counterexample: desired `{a : UInt8}` with live `[(a, Int8), (x,
String)]` — the check logs the `TypeMismatch` for `a` before the
`ColumnExcess` for `x`, so the divergence list is not ordered with every
excess divergence before every mismatch divergence. -/
theorem claim1_counterexample :
    (checkTableReplica ⟨false, false⟩ "t"
      ⟨false, false, false, [("a", "UInt8")], "Log", "", ""⟩
      [("a", "Int8"), ("x", "String")]).divs =
      [Divergence.typeMismatch "a" "UInt8" "Int8", Divergence.columnExcess "x"] ∧
    rankChain
      (checkTableReplica ⟨false, false⟩ "t"
        ⟨false, false, false, [("a", "UInt8")], "Log", "", ""⟩
        [("a", "Int8"), ("x", "String")]).divs = false := by
  constructor
  · decide
  · decide

/-- C1 (amended): for a non-panicking check of a non-empty live sequence,
the divergence list is the per-live-column divergences (`ColumnExcess` and
`TypeMismatch` interleaved, at most one per live column, in the discovery
order of the live sequence) followed by all `ColumnMissing` divergences in
the insertion order of the desired column mapping; so every excess or
mismatch divergence precedes every missing divergence. -/
theorem claim1_ordering_amended (flags : SyncFlags) (tname : String)
    (t : Table) (live : List (String × String))
    (hnp : (checkTableReplica flags tname t live).panicked = false)
    (hne : live ≠ []) :
    (checkTableReplica flags tname t live).divs =
      live.filterMap (scanDivSpec t) ++
        t.columns.filterMap (missingDivSpec (live.map Prod.fst)) ∧
    (∀ d ∈ live.filterMap (scanDivSpec t), kindRank d = 1 ∨ kindRank d = 2) ∧
    (∀ d ∈ t.columns.filterMap (missingDivSpec (live.map Prod.fst)),
      kindRank d = 3) := by
  refine ⟨?_, ?_, ?_⟩
  · rw [checkTableReplica_eq flags tname t live hnp hne]
  · intro d hd
    obtain ⟨p, _, he⟩ := List.mem_filterMap.mp hd
    by_cases hemp : t.columns.isEmpty
    · simp [scanDivSpec, hemp] at he
    · cases hlk : lookupCol t.columns p.1 with
      | none =>
        simp [scanDivSpec, hemp, hlk] at he
        left; rw [← he]; rfl
      | some need =>
        cases hf : fields need with
        | nil => simp [scanDivSpec, hemp, hlk, hf] at he
        | cons tok toks =>
          by_cases htok : tok = p.2
          · simp [scanDivSpec, hemp, hlk, hf, htok] at he
          · simp [scanDivSpec, hemp, hlk, hf, htok] at he
            right; rw [← he]; rfl
  · intro d hd
    obtain ⟨p, _, he⟩ := List.mem_filterMap.mp hd
    by_cases hc : p.1 ∈ live.map Prod.fst
    · simp [missingDivSpec, hc] at he
    · simp [missingDivSpec, hc] at he
      rw [← he]; rfl

theorem claim1_ordering_amended_witness :
    (checkTableReplica ⟨false, false⟩ "t"
      ⟨false, false, false, [("a", "UInt8"), ("m", "String")], "Log", "", ""⟩
      [("a", "Int8"), ("x", "String")]).divs =
      [("a", "Int8"), ("x", "String")].filterMap
        (scanDivSpec ⟨false, false, false, [("a", "UInt8"), ("m", "String")], "Log", "", ""⟩) ++
      [("a", "UInt8"), ("m", "String")].filterMap
        (missingDivSpec ["a", "x"]) :=
  (claim1_ordering_amended ⟨false, false⟩ "t"
    ⟨false, false, false, [("a", "UInt8"), ("m", "String")], "Log", "", ""⟩
    [("a", "Int8"), ("x", "String")] (by decide) (by decide)).1

/-- C2 counterexample: a desired table with an empty column mapping and an
empty live sequence have equal (empty) column name sets, yet the check
reports an `ObjectMissing` divergence and (with `applyFixes`) dispatches a
create-table task. -/
theorem claim2_counterexample :
    (([] : List (String × String)).map Prod.fst =
      (Table.mk false false false [] "Log" "" "").columns.map Prod.fst) ∧
    checkTableReplica ⟨true, false⟩ "t" (Table.mk false false false [] "Log" "" "") [] =
      ⟨[Divergence.objectMissing],
       [Action.createTable "t" (Table.mk false false false [] "Log" "" "")],
       false⟩ := by
  constructor
  · rfl
  · decide

/-- C2 (amended): for every (desired, live) pair with a NON-EMPTY live
sequence whose column set equals the desired column set — every live
column name maps in the desired mapping to a type whose first
whitespace-delimited token equals the live type string, and every desired
column name occurs among the live names — the check reports no divergence
and dispatches no corrective task. -/
theorem claim2_matching_schema_amended (flags : SyncFlags) (tname : String)
    (t : Table) (live : List (String × String))
    (hne : live ≠ [])
    (htypes : ∀ p ∈ live,
      (lookupCol t.columns p.1).bind (fun need => (fields need).head?) = some p.2)
    (hnames : ∀ q ∈ t.columns, q.1 ∈ live.map Prod.fst) :
    checkTableReplica flags tname t live = ⟨[], [], false⟩ := by
  have hs := scanColumns_match flags tname t live htypes
  have hle : live.isEmpty = false := by
    cases live with
    | nil => exact absurd rfl hne
    | cons a l => rfl
  have hm := missingColumns_eq flags tname t (live.map Prod.fst)
  have hd : t.columns.filterMap (missingDivSpec (live.map Prod.fst)) = [] := by
    rw [List.filterMap_eq_nil_iff]
    intro q hq
    simp [missingDivSpec, hnames q hq]
  have ha : t.columns.filterMap (missingActSpec flags tname (live.map Prod.fst)) = [] := by
    rw [List.filterMap_eq_nil_iff]
    intro q hq
    simp [missingActSpec, hnames q hq]
  simp [checkTableReplica, hs, hle, hm, hd, ha]

theorem claim2_matching_schema_amended_witness :
    checkTableReplica ⟨true, true⟩ "t"
      ⟨false, false, false, [("id", "UInt64"), ("v", "UInt8 DEFAULT 0")], "Log", "", ""⟩
      [("v", "UInt8"), ("id", "UInt64")] = ⟨[], [], false⟩ :=
  claim2_matching_schema_amended ⟨true, true⟩ "t"
    ⟨false, false, false, [("id", "UInt64"), ("v", "UInt8 DEFAULT 0")], "Log", "", ""⟩
    [("v", "UInt8"), ("id", "UInt64")] (by decide) (by decide) (by decide)
theorem mem_scanDivs_excess (t : Table) (live : List (String × String))
    (cname : String) :
    Divergence.columnExcess cname ∈ live.filterMap (scanDivSpec t) ↔
      (t.columns.isEmpty = false ∧ lookupCol t.columns cname = none ∧
        ∃ ctype, (cname, ctype) ∈ live) := by
  constructor
  · intro h
    obtain ⟨p, hp, he⟩ := List.mem_filterMap.mp h
    by_cases hemp : t.columns.isEmpty
    · simp [scanDivSpec, hemp] at he
    · cases hlk : lookupCol t.columns p.1 with
      | none =>
        simp only [scanDivSpec, hemp, if_false, hlk, Option.some.injEq,
          Bool.false_eq_true] at he
        obtain ⟨rfl⟩ := Divergence.columnExcess.injEq .. ▸ he
        exact ⟨by simp [hemp], hlk, p.2, hp⟩
      | some need =>
        cases hf : fields need with
        | nil => simp [scanDivSpec, hemp, hlk, hf] at he
        | cons tok toks =>
          by_cases htok : tok = p.2 <;>
            simp [scanDivSpec, hemp, hlk, hf, htok] at he
  · rintro ⟨hemp, hlk, ctype, hmem⟩
    exact List.mem_filterMap.mpr ⟨(cname, ctype), hmem, by
      simp [scanDivSpec, hemp, hlk]⟩

theorem excess_not_mem_missingDivs (ln : List String) (t : Table)
    (cname : String) :
    Divergence.columnExcess cname ∉ t.columns.filterMap (missingDivSpec ln) := by
  intro h
  obtain ⟨q, hq, he⟩ := List.mem_filterMap.mp h
  by_cases hc : q.1 ∈ ln <;> simp [missingDivSpec, hc] at he

theorem mem_scanActs_drop (flags : SyncFlags) (tname : String) (t : Table)
    (live : List (String × String)) (cname : String) :
    Action.dropColumn tname cname ∈ live.filterMap (scanActSpec flags tname t) ↔
      ((flags.fix && flags.dropColumns) = true ∧ t.columns.isEmpty = false ∧
        lookupCol t.columns cname = none ∧ ∃ ctype, (cname, ctype) ∈ live) := by
  constructor
  · intro h
    obtain ⟨p, hp, he⟩ := List.mem_filterMap.mp h
    by_cases hemp : t.columns.isEmpty
    · simp [scanActSpec, hemp] at he
    · cases hlk : lookupCol t.columns p.1 with
      | none =>
        by_cases hfd : (flags.fix && flags.dropColumns) = true
        · simp only [scanActSpec, hemp, if_false, hlk, hfd, if_true,
            Option.some.injEq, Bool.false_eq_true] at he
          obtain ⟨-, rfl⟩ := Action.dropColumn.injEq .. ▸ he
          exact ⟨hfd, by simp [hemp], hlk, p.2, hp⟩
        · simp [scanActSpec, hemp, hlk, hfd] at he
      | some need =>
        cases hf : fields need with
        | nil => simp [scanActSpec, hemp, hlk, hf] at he
        | cons tok toks =>
          by_cases htok : tok = p.2 <;> by_cases hfx : flags.fix = true <;>
            simp [scanActSpec, hemp, hlk, hf, htok, hfx] at he
  · rintro ⟨hfd, hemp, hlk, ctype, hmem⟩
    exact List.mem_filterMap.mpr ⟨(cname, ctype), hmem, by
      simp [scanActSpec, hemp, hlk, hfd]⟩

theorem dropColumn_not_mem_missingActs (flags : SyncFlags) (tname : String)
    (ln : List String) (t : Table) (cname : String) :
    Action.dropColumn tname cname ∉
      t.columns.filterMap (missingActSpec flags tname ln) := by
  intro h
  obtain ⟨q, hq, he⟩ := List.mem_filterMap.mp h
  by_cases hc : q.1 ∈ ln <;> by_cases hfx : flags.fix = true <;>
    simp [missingActSpec, hc, hfx] at he

/-- C5: for a non-panicking check of a non-empty live sequence, a
`ColumnExcess` divergence is logged exactly for the live columns absent
from a non-empty desired mapping, and a drop-column task is dispatched for
a column if and only if both `fix` and `dropColumns` are set and that
excess divergence is logged — with neither or only one flag set, the
divergence is still logged and no drop task exists. -/
theorem claim5_excess_drop_policy (flags : SyncFlags) (tname : String)
    (t : Table) (live : List (String × String)) (cname : String)
    (hnp : (checkTableReplica flags tname t live).panicked = false)
    (hne : live ≠ []) :
    (Divergence.columnExcess cname ∈ (checkTableReplica flags tname t live).divs ↔
      t.columns.isEmpty = false ∧ lookupCol t.columns cname = none ∧
        ∃ ctype, (cname, ctype) ∈ live) ∧
    (Action.dropColumn tname cname ∈ (checkTableReplica flags tname t live).acts ↔
      (flags.fix && flags.dropColumns) = true ∧
        Divergence.columnExcess cname ∈ (checkTableReplica flags tname t live).divs) := by
  rw [checkTableReplica_eq flags tname t live hnp hne]
  dsimp only
  constructor
  · simp only [List.mem_append]
    constructor
    · rintro (h | h)
      · exact (mem_scanDivs_excess t live cname).mp h
      · exact absurd h (excess_not_mem_missingDivs _ t cname)
    · intro h
      exact Or.inl ((mem_scanDivs_excess t live cname).mpr h)
  · simp only [List.mem_append]
    constructor
    · rintro (h | h)
      · obtain ⟨hfd, hemp, hlk, hc⟩ := (mem_scanActs_drop flags tname t live cname).mp h
        exact ⟨hfd, Or.inl ((mem_scanDivs_excess t live cname).mpr ⟨hemp, hlk, hc⟩)⟩
      · exact absurd h (dropColumn_not_mem_missingActs flags tname _ t cname)
    · rintro ⟨hfd, h | h⟩
      · obtain ⟨hemp, hlk, hc⟩ := (mem_scanDivs_excess t live cname).mp h
        exact Or.inl ((mem_scanActs_drop flags tname t live cname).mpr ⟨hfd, hemp, hlk, hc⟩)
      · exact absurd h (excess_not_mem_missingDivs _ t cname)

theorem claim5_excess_drop_policy_witness :
    (Divergence.columnExcess "x" ∈
        (checkTableReplica ⟨true, false⟩ "t"
          ⟨false, false, false, [("a", "UInt8")], "Log", "", ""⟩
          [("a", "UInt8"), ("x", "String")]).divs ↔
      (Table.mk false false false [("a", "UInt8")] "Log" "" "").columns.isEmpty = false ∧
        lookupCol [("a", "UInt8")] "x" = none ∧
        ∃ ctype, ("x", ctype) ∈ [("a", "UInt8"), ("x", "String")]) ∧
    (Action.dropColumn "t" "x" ∈
        (checkTableReplica ⟨true, false⟩ "t"
          ⟨false, false, false, [("a", "UInt8")], "Log", "", ""⟩
          [("a", "UInt8"), ("x", "String")]).acts ↔
      (true && false) = true ∧
        Divergence.columnExcess "x" ∈
          (checkTableReplica ⟨true, false⟩ "t"
            ⟨false, false, false, [("a", "UInt8")], "Log", "", ""⟩
            [("a", "UInt8"), ("x", "String")]).divs) :=
  claim5_excess_drop_policy ⟨true, false⟩ "t"
    ⟨false, false, false, [("a", "UInt8")], "Log", "", ""⟩
    [("a", "UInt8"), ("x", "String")] "x" (by decide) (by decide)
/-- Whether `needle` occurs in `hay` as a contiguous substring. -/
def strContainsSub (hay needle : String) : Bool :=
  (List.range (hay.data.length + 1)).any fun i =>
    needle.data.isPrefixOf (hay.data.drop i)

theorem strContainsSub_append (a b : String) :
    strContainsSub (a ++ b) b = true := by
  unfold strContainsSub
  rw [List.any_eq_true]
  refine ⟨a.data.length, ?_, ?_⟩
  · rw [List.mem_range, String.data_append, List.length_append]
    omega
  · rw [String.data_append, List.drop_left]
    exact List.isPrefixOf_iff_prefix.mpr (List.prefix_refl _)

theorem mem_scanActs_modify (flags : SyncFlags) (tname : String) (t : Table)
    (live : List (String × String)) (cname ctype need tok : String)
    (toks : List String)
    (hfix : flags.fix = true) (hmem : (cname, ctype) ∈ live)
    (hlk : lookupCol t.columns cname = some need)
    (hf : fields need = tok :: toks) (hd : ¬ tok = ctype) :
    Action.modifyColumn tname cname tok ∈
      live.filterMap (scanActSpec flags tname t) :=
  List.mem_filterMap.mpr ⟨(cname, ctype), hmem, by
    have hemp := lookupCol_isEmpty_false t.columns cname need hlk
    simp [scanActSpec, hemp, hlk, hf, hd, hfix]⟩

/-- C7 counterexample: desired type `"UInt8 DEFAULT 0"` for column `c`,
live type `UInt16`, fixes on — the dispatched task modifies the column to
`UInt8` only, and the issued `ALTER TABLE ... MODIFY COLUMN` statement does
not contain the configured desired type string `"UInt8 DEFAULT 0"`. -/
theorem claim7_counterexample :
    (checkTableReplica ⟨true, false⟩ "t"
      ⟨false, false, false, [("c", "UInt8 DEFAULT 0")], "Log", "", ""⟩
      [("c", "UInt16")]).acts = [Action.modifyColumn "t" "c" "UInt8"] ∧
    Action.stmt (Action.modifyColumn "t" "c" "UInt8") =
      some "ALTER TABLE t MODIFY COLUMN c UInt8" ∧
    strContainsSub "ALTER TABLE t MODIFY COLUMN c UInt8" "UInt8 DEFAULT 0" =
      false := by
  refine ⟨by decide, by decide, by decide⟩

/-- C7 (amended): for every type mismatch with `applyFixes` set, the
dispatched task modifies the column to the FIRST whitespace-delimited
token of the configured desired type string, and the issued
`ALTER TABLE ... MODIFY COLUMN` statement contains that first token (not,
in general, the full configured type string). -/
theorem claim7_modify_first_token_amended (flags : SyncFlags) (tname : String)
    (t : Table) (live : List (String × String))
    (cname ctype need tok : String) (toks : List String)
    (hfix : flags.fix = true)
    (hnp : (checkTableReplica flags tname t live).panicked = false)
    (hmem : (cname, ctype) ∈ live)
    (hlk : lookupCol t.columns cname = some need)
    (hf : fields need = tok :: toks)
    (hd : ¬ tok = ctype) :
    Action.modifyColumn tname cname tok ∈
      (checkTableReplica flags tname t live).acts ∧
    Action.stmt (Action.modifyColumn tname cname tok) =
      some ("ALTER TABLE " ++ tname ++ " MODIFY COLUMN " ++ cname ++ " " ++ tok) ∧
    strContainsSub
      ("ALTER TABLE " ++ tname ++ " MODIFY COLUMN " ++ cname ++ " " ++ tok)
      tok = true := by
  have hne : live ≠ [] := by
    intro h
    rw [h] at hmem
    simp at hmem
  rw [checkTableReplica_eq flags tname t live hnp hne]
  refine ⟨?_, rfl, strContainsSub_append _ tok⟩
  dsimp only
  exact List.mem_append.mpr
    (Or.inl (mem_scanActs_modify flags tname t live cname ctype need tok toks
      hfix hmem hlk hf hd))

theorem claim7_modify_first_token_amended_witness :
    Action.modifyColumn "t" "c" "UInt8" ∈
      (checkTableReplica ⟨true, false⟩ "t"
        ⟨false, false, false, [("c", "UInt8 DEFAULT 0")], "Log", "", ""⟩
        [("c", "UInt16")]).acts ∧
    Action.stmt (Action.modifyColumn "t" "c" "UInt8") =
      some ("ALTER TABLE " ++ "t" ++ " MODIFY COLUMN " ++ "c" ++ " " ++ "UInt8") ∧
    strContainsSub
      ("ALTER TABLE " ++ "t" ++ " MODIFY COLUMN " ++ "c" ++ " " ++ "UInt8")
      "UInt8" = true :=
  claim7_modify_first_token_amended ⟨true, false⟩ "t"
    ⟨false, false, false, [("c", "UInt8 DEFAULT 0")], "Log", "", ""⟩
    [("c", "UInt16")] "c" "UInt16" "UInt8 DEFAULT 0" "UInt8" ["DEFAULT", "0"]
    (by decide) (by decide) (by decide) (by decide) (by decide) (by decide)
/-- Outcome of handling one endpoint inside `Synchronizer.Connect`:
`sql.Open` failed, the liveness `Ping` failed, or the connection is kept. -/
inductive ConnOutcome where
  | okConn
  | openErr (msg : String)
  | pingErr (msg : String)
deriving Repr, DecidableEq

/-- The endpoint loop of `Synchronizer.Connect`, with `i` the index of the
first endpoint: both failure kinds `continue` after collecting the error;
a successful connection is appended to the pool (represented by its
endpoint index, preserving order). -/
def connectAux : Nat → List ConnOutcome → List Nat × List String
  | _, [] => ([], [])
  | i, o :: rest =>
    let r := connectAux (i + 1) rest
    match o with
    | .okConn => (i :: r.1, r.2)
    | .openErr m => (r.1, m :: r.2)
    | .pingErr m => (r.1, m :: r.2)

/-- The error aggregation of `Connect`/`Close`:
`text += err.Error() + "\n"` over the collected errors, in order. -/
def aggErrText (msgs : List String) : String :=
  msgs.foldl (fun text m => text ++ m ++ "\n") ""

/-- `Synchronizer.Connect`: the pool of successful connections, plus
`none` when no endpoint failed and otherwise the combined error text. -/
def connect (os : List ConnOutcome) : List Nat × Option String :=
  let r := connectAux 0 os
  (r.1, if r.2.isEmpty then none else some (aggErrText r.2))

/-- The failure text an endpoint outcome contributes, if any. -/
def failMsg : ConnOutcome → Option String
  | .okConn => none
  | .openErr m => some m
  | .pingErr m => some m

/-- Whether an endpoint outcome is a kept connection. -/
def isOkConn : ConnOutcome → Bool
  | .okConn => true
  | _ => false

/-- How `main` ends with respect to `Connect`: `panic(err)` on a non-nil
connect error, before any check is run; otherwise the run proceeds. -/
inductive RunOutcome where
  | abortedOnConnect (msg : String)
  | proceeded
deriving Repr, DecidableEq

/-- `main`'s handling of the `Connect` result. -/
def runMain (os : List ConnOutcome) : RunOutcome :=
  match (connect os).2 with
  | some m => .abortedOnConnect m
  | none => .proceeded

/-- Modelled from the spec's words: the per-endpoint failure texts
"joined by newlines, preserving original order". -/
def specNewlineJoined : List String → String
  | [] => ""
  | m :: rest =>
    if rest.isEmpty then m else m ++ "\n" ++ specNewlineJoined rest

theorem aggErrText_from (msgs : List String) :
    ∀ acc : String,
      msgs.foldl (fun text m => text ++ m ++ "\n") acc = acc ++ aggErrText msgs := by
  induction msgs with
  | nil => intro acc; simp [aggErrText, String.append_empty]
  | cons m rest ih =>
    intro acc
    show List.foldl (fun text m => text ++ m ++ "\n") acc (m :: rest) = _
    rw [List.foldl_cons, ih (acc ++ m ++ "\n")]
    conv_rhs => rw [aggErrText, List.foldl_cons, ih ("" ++ m ++ "\n")]
    simp [String.append_assoc, String.empty_append]

theorem aggErrText_eq_joined :
    ∀ msgs : List String, msgs ≠ [] →
      aggErrText msgs = specNewlineJoined msgs ++ "\n"
  | [], h => absurd rfl h
  | [m], _ => by
    simp [aggErrText, specNewlineJoined, String.empty_append]
  | m :: m2 :: rest, _ => by
    have ih := aggErrText_eq_joined (m2 :: rest) (by simp)
    have hfrom := aggErrText_from (m2 :: rest) ("" ++ m ++ "\n")
    calc aggErrText (m :: m2 :: rest)
        = ("" ++ m ++ "\n") ++ aggErrText (m2 :: rest) := by
          simp only [aggErrText, List.foldl_cons] at hfrom ⊢
          exact hfrom
      _ = specNewlineJoined (m :: m2 :: rest) ++ "\n" := by
          rw [ih]
          conv_rhs => rw [specNewlineJoined]
          simp [String.append_assoc, String.empty_append]

theorem connectAux_spec :
    ∀ (os : List ConnOutcome) (i : Nat),
      connectAux i os =
        (((os.enumFrom i).filter fun p => isOkConn p.2).map Prod.fst,
         os.filterMap failMsg)
  | [], i => by simp [connectAux]
  | o :: rest, i => by
    have ih := connectAux_spec rest (i + 1)
    cases o <;> simp [connectAux, ih, isOkConn, failMsg, List.enumFrom]

/-- C6: `Connect` attempts every endpoint without stopping at a failure:
the pool is exactly the successfully opened-and-pinged connections in
endpoint order (represented by endpoint indices); the combined error is
`none` iff no endpoint failed, and otherwise its message is the
per-endpoint failure texts joined by newlines in original endpoint order
(with a trailing newline); and a non-nil combined error makes the caller
(`main`) abort the whole run. -/
theorem claim6_connect_pool_and_errors (os : List ConnOutcome) :
    (connect os).1 = (os.enum.filter fun p => isOkConn p.2).map Prod.fst ∧
    ((connect os).2 = none ↔ os.filterMap failMsg = []) ∧
    (os.filterMap failMsg ≠ [] →
      (connect os).2 = some (specNewlineJoined (os.filterMap failMsg) ++ "\n")) ∧
    (∀ m, (connect os).2 = some m → runMain os = .abortedOnConnect m) := by
  have h := connectAux_spec os 0
  refine ⟨?_, ?_, ?_, ?_⟩
  · simp [connect, h, List.enum]
  · simp only [connect, h]
    cases hm : os.filterMap failMsg with
    | nil => simp
    | cons a l => simp
  · intro hne
    have hie : (os.filterMap failMsg).isEmpty = false := by
      cases hm : os.filterMap failMsg with
      | nil => exact absurd hm hne
      | cons a l => rfl
    simp only [connect, h, hie, Bool.false_eq_true, if_false, Option.some.injEq]
    exact aggErrText_eq_joined _ hne
  · intro m hm
    simp [runMain, hm]

theorem claim6_connect_pool_and_errors_witness :
    (connect [ConnOutcome.openErr "dial tcp: refused", ConnOutcome.okConn,
        ConnOutcome.pingErr "ping timeout"]).1 = [1] ∧
    (connect [ConnOutcome.openErr "dial tcp: refused", ConnOutcome.okConn,
        ConnOutcome.pingErr "ping timeout"]).2 =
      some "dial tcp: refused\nping timeout\n" ∧
    runMain [ConnOutcome.openErr "dial tcp: refused", ConnOutcome.okConn,
        ConnOutcome.pingErr "ping timeout"] =
      RunOutcome.abortedOnConnect "dial tcp: refused\nping timeout\n" := by
  have h := claim6_connect_pool_and_errors
    [ConnOutcome.openErr "dial tcp: refused", ConnOutcome.okConn,
      ConnOutcome.pingErr "ping timeout"]
  refine ⟨by decide, ?_, ?_⟩
  · have := h.2.2.1 (by decide)
    rw [this]
    decide
  · exact h.2.2.2 _ (by
      have := h.2.2.1 (by decide)
      rw [this]
      decide)

end Chsync
